import Mathlib

/-!
Shallow embedding of the pcc compiler (pcc.py): IR statements, the peephole
reducer `AsmBuffer.reduce`, unused-tag elimination `AsmBuffer.drop_unused_tags`,
tag binding `AsmBuffer.bind_tags`, the link pass of `pcc()`, the dead-function
elimination loop, constant folding `AstCompiler.try_parse_constant`, and the
VM-API argument remappers of `VmApiFunction`.

Modelling conventions:
* `AsmVar` / `AsmTag` objects are identified by `Nat` ids (Python compares them
  by object identity; each constructed handle is a distinct object, so distinct
  ids model distinct objects and equal ids model the same object).
* Instruction operands (`AsmCmd.args`) are `Arg`: Python `int`, `str`, `AsmVar`
  or `AsmTag` values.  Python `==` on these is value equality for int/str and
  identity for handles, which coincides with `DecidableEq Arg` here.
* `AsmCmd` and its subclass `AsmBranchCmd` become the constructors `cmd` and
  `branch`; `AsmBuffer.__call__` guarantees that the branch mnemonics
  TAG/CALL/JMP/JNZ/JZ/JP/JM only ever occur as `branch` (or tag) statements,
  so buffers built by the compiler never contain a `cmd` with those mnemonics.
* Python dicts keyed by handles become association lists `List (Nat × Nat)`.
* A Python crash (uncaught IndexError on `in_buf[0]` for an empty buffer) is
  modelled by `Option`: `reduce [] = none`.
-/

/-- Operand of an instruction: Python int, str, `AsmVar` (with its owning
function present or absent, from `var_sym.context_function`), or `AsmTag`. -/
inductive Arg
  | int (n : Int)
  | str (s : String)
  | var (id : Nat) (isGlobal : Bool)
  | tag (t : Nat)
deriving DecidableEq, Repr

/-- An `AsmStatement`: a bare `AsmTag` used as a label statement, a plain
`AsmCmd`, or an `AsmBranchCmd` (which `AsmBuffer.__call__` constrains to carry
exactly one `AsmTag` argument). -/
inductive AsmStmt
  | tag (t : Nat)
  | cmd (instr : String) (args : List Arg)
  | branch (instr : String) (t : Nat)
deriving DecidableEq, Repr

/-- `isinstance(s, AsmTag)`. -/
def isTagStmt : AsmStmt → Bool
  | .tag _ => true
  | _ => false

/-- `isinstance(s, AsmCmd)` (`AsmBranchCmd` is a subclass of `AsmCmd`). -/
def stmtIsCmd (s : AsmStmt) : Bool := !(isTagStmt s)

/-- The `instr` field of an `AsmCmd`/`AsmBranchCmd` (none for a tag statement). -/
def instrOf : AsmStmt → Option String
  | .cmd i _ => some i
  | .branch i _ => some i
  | .tag _ => none

/-- `s.args[0]` where it exists (an `AsmBranchCmd`'s single argument is its
tag).  Python raises IndexError on an empty argument list; that dead case is
modelled as `none`, which the reducer treats as "no match". -/
def argsHead : AsmStmt → Option Arg
  | .cmd _ (a :: _) => some a
  | .cmd _ [] => none
  | .branch _ t => some (.tag t)
  | .tag _ => none

/-- `AsmBuffer._replace_tag(find_tag, replace_tag)` on one statement: only
`AsmBranchCmd` arguments are rewritten (`TAG` statements are never touched). -/
def replaceTagStmt (find repl : Nat) : AsmStmt → AsmStmt
  | .branch i t => .branch i (if t = find then repl else t)
  | s => s

/-- `AsmBuffer._replace_tag` over a statement list. -/
def replaceTagL (find repl : Nat) (l : List AsmStmt) : List AsmStmt :=
  l.map (replaceTagStmt find repl)

theorem length_replaceTagL (find repl : Nat) (l : List AsmStmt) :
    (replaceTagL find repl l).length = l.length := List.length_map ..

/-- The three (prev, curr) rules of `reduce()` that apply when both statements
are `AsmCmd`s (pcc.py lines 120-128): RET+RET, JMP+JMP, and STA x + LDA x.
All three drop `curr` and keep `prev`. -/
def pairMatch (prev curr : AsmStmt) : Bool :=
  stmtIsCmd prev && stmtIsCmd curr &&
    ((instrOf prev = some "RET" && instrOf curr = some "RET") ||
     (instrOf prev = some "JMP" && instrOf curr = some "JMP") ||
     (instrOf prev = some "STA" && instrOf curr = some "LDA" &&
      argsHead prev = argsHead curr && (argsHead prev).isSome))

/-- One iteration of the loop body of `AsmBuffer.reduce()` (pcc.py lines
117-149), where `prev :: outTail` is `out_buf` in reverse (so `prev` is
`out_buf[-1]`), `curr` the current statement and `rest'` the statements still
to process.  Returns the updated reversed `out_buf` and remaining input.
Because `_replace_tag` walks `self.stmt_buf`, whose statement objects are
shared with `out_buf`, a tag replacement is applied to both sides here.  The
case of a non-branch `cmd` whose mnemonic is "JMP" next to a tag statement
cannot arise from `AsmBuffer.__call__` (which forces JMP to be an
`AsmBranchCmd`); it is treated as "no rule". -/
def reduceStep (prev : AsmStmt) (outTail : List AsmStmt) (curr : AsmStmt)
    (rest' : List AsmStmt) : List AsmStmt × List AsmStmt :=
  if stmtIsCmd prev && stmtIsCmd curr then
    -- "RET+RET", "JMP X + JMP Y", "STA X + LDA X": drop curr
    if pairMatch prev curr then (prev :: outTail, rest')
    else (curr :: prev :: outTail, rest')
  else
    match prev, curr with
    | .tag x, .tag y =>
      -- "TAG X + TAG Y": replace all uses of Y with X, drop TAG Y
      (replaceTagL y x (.tag x :: outTail), replaceTagL y x rest')
    | .tag x, .branch bi y =>
      if bi = "JMP" then
        if 2 < (AsmStmt.tag x :: outTail).length &&
            (match outTail.head? with
             | some s => stmtIsCmd s && instrOf s = some "JMP"
             | none => false) then
          -- "JMP Z + TAG X + JMP Y": replace X with Y, drop both TAG X and JMP Y
          (replaceTagL x y outTail, replaceTagL x y rest')
        else
          -- "TAG X + JMP Y": replace X with Y, drop TAG X, keep JMP Y
          (.branch bi y :: replaceTagL x y outTail, replaceTagL x y rest')
      else (curr :: .tag x :: outTail, rest')
    | .branch bi t, .tag u =>
      -- "JMP X + TAG X": drop JMP X, keep TAG X
      if bi = "JMP" && t == u then (curr :: outTail, rest')
      else (curr :: .branch bi t :: outTail, rest')
    | _, _ => (curr :: prev :: outTail, rest')

/-- Loop of `AsmBuffer.reduce()` (pcc.py lines 114-150): fold `reduceStep`
over the input.  `fuel` is structural-recursion fuel; `reduce` supplies
`rest.length`, which is exact because every step consumes one statement (tag
replacement preserves the length of the remaining input). -/
def reduceGo : Nat → List AsmStmt → List AsmStmt → List AsmStmt
  | _, revOut, [] => revOut.reverse
  | 0, revOut, rest => revOut.reverse ++ rest   -- unreachable: fuel ≥ rest.length
  | fuel + 1, revOut, curr :: rest' =>
    match revOut with
    | [] => reduceGo fuel [curr] rest'   -- unreachable from `reduce` (out_buf starts non-empty)
    | prev :: outTail =>
      reduceGo fuel (reduceStep prev outTail curr rest').1 (reduceStep prev outTail curr rest').2

/-- `AsmBuffer.reduce()`: `out_buf = [in_buf[0]]` raises IndexError on an empty
buffer (modelled as `none`), then folds over `in_buf[1:]`. -/
def reduce : List AsmStmt → Option (List AsmStmt)
  | [] => none
  | s :: rest => some (reduceGo rest.length [s] rest)

example : reduce [.branch "JMP" 0, .tag 1, .branch "JMP" 2] =
    some [.branch "JMP" 0, .branch "JMP" 2] := by decide
example : reduce [.branch "JMP" 0, .branch "JMP" 2] = some [.branch "JMP" 0] := by decide
example : reduce [.tag 1, .branch "JMP" 2] = some [.branch "JMP" 2] := by decide
example : reduce [.cmd "LDA" [], .branch "JMP" 0, .tag 1, .branch "JMP" 2] =
    some [.cmd "LDA" [], .branch "JMP" 0] := by decide

/-! ## Association lists for `dict(AsmTag: int)` (tag_use_count) -/

/-- Lookup in an association list (a Python dict keyed by tag identity). -/
def lookupA : List (Nat × Nat) → Nat → Option Nat
  | [], _ => none
  | (k, v) :: m, t => if k = t then some v else lookupA m t

/-- `dict[k] = v`: update if present, append otherwise. -/
def setA : List (Nat × Nat) → Nat → Nat → List (Nat × Nat)
  | [], k, v => [(k, v)]
  | (k0, v0) :: m, k, v =>
    if k0 = k then (k0, v) :: m else (k0, v0) :: setA m k v

/-- Counting pass of `AsmBuffer.drop_unused_tags` (pcc.py lines 153-161):
a `TAG` statement not yet in the map is entered with count 0; every
`AsmBranchCmd` operand is entered with 1 or incremented. -/
def countTags : List AsmStmt → List (Nat × Nat) → List (Nat × Nat)
  | [], m => m
  | .tag t :: rest, m =>
    countTags rest (match lookupA m t with
      | none => setA m t 0
      | some _ => m)
  | .branch _ t :: rest, m =>
    countTags rest (match lookupA m t with
      | none => setA m t 1
      | some v => setA m t (v + 1))
  | .cmd _ _ :: rest, m => countTags rest m

/-- `AsmBuffer.drop_unused_tags(tag_use_count)` (pcc.py lines 152-164): count
uses, then delete every `TAG` statement whose count is zero. -/
def dropUnusedTags (stmts : List AsmStmt) (seed : List (Nat × Nat)) : List AsmStmt :=
  let m := countTags stmts seed
  stmts.filter (fun s =>
    match s with
    | .tag t =>
      match lookupA m t with
      | some 0 => false
      | _ => true
    | _ => true)

/-! ## Tag binding and variable collection -/

/-- `AsmBuffer.bind_tags(tag_id_offset)` (pcc.py lines 166-172), as the list of
`(tag id, bound number)` pairs it produces, in buffer order. -/
def bindTagsList : List AsmStmt → Nat → List (Nat × Nat)
  | [], _ => []
  | .tag t :: rest, k => (t, k) :: bindTagsList rest (k + 1)
  | .cmd _ _ :: rest, k => bindTagsList rest k
  | .branch _ _ :: rest, k => bindTagsList rest k

/-- Return value of `bind_tags`: the number of `TAG` statements in the buffer. -/
def numTags (stmts : List AsmStmt) : Nat := (stmts.filter isTagStmt).length

/-- The tag-binding loop of `pcc()` (pcc.py lines 1310-1313): bind each
buffer's tags at the running base, then advance the base with
`tag_base = ((tag_base + n_tags + 10) // 10) * 10`. -/
def linkBindTags : List (List AsmStmt) → Nat → List (Nat × Nat)
  | [], _ => []
  | b :: bs, base =>
    bindTagsList b base ++ linkBindTags bs (((base + numTags b + 10) / 10) * 10)

/-- The complete tag assignment of the link pass: `tag_base` starts at 0
(pcc.py line 1306). -/
def pccTagAssign (bufs : List (List AsmStmt)) : List (Nat × Nat) :=
  linkBindTags bufs 0

/-- `tag_count` accumulated by the binding loop (pcc.py line 1312). -/
def pccTagCount (bufs : List (List AsmStmt)) : Nat := (bufs.map numTags).sum

/-- Insertion into a `dict(AsmVar: any)` used as an ordered set. -/
def insertUnique (l : List Nat) (x : Nat) : List Nat :=
  if x ∈ l then l else l ++ [x]

/-- `AsmBuffer.collect_vm_variables(global_asm_vars, local_asm_vars)`
(pcc.py lines 174-182): walk every `AsmCmd`'s arguments and partition the
`AsmVar`s by whether their symbol's `context_function` is absent (global).
Branch commands carry only a tag argument, so they contribute nothing. -/
def collectVmVariables : List AsmStmt → List Nat × List Nat → List Nat × List Nat
  | [], acc => acc
  | .cmd _ args :: rest, acc =>
    collectVmVariables rest (args.foldl (fun acc2 a =>
      match a with
      | .var id g => if g then (insertUnique acc2.1 id, acc2.2) else (acc2.1, insertUnique acc2.2 id)
      | _ => acc2) acc)
  | _ :: rest, acc => collectVmVariables rest acc

/-- `var_count` of the link pass (pcc.py lines 1314-1319): 1 (SCR0) +
3 (ARG_REGS) reserved slots, plus one slot per collected variable
(globals in first-appearance order, then locals). -/
def pccVarCount (bufs : List (List AsmStmt)) : Nat :=
  let collected := bufs.foldl (fun acc b => collectVmVariables b acc) ([], [])
  1 + 3 + (collected.1.length + collected.2.length)

/-! ## The link pass (pcc.py lines 1288-1303) -/

/-- `AsmBuffer.replace_instruction(find_instr, replace_instr)` (pcc.py lines
109-112): rename the mnemonic of every `AsmCmd` (including branch commands). -/
def replaceInstruction (find repl : String) (stmts : List AsmStmt) : List AsmStmt :=
  stmts.map (fun s =>
    match s with
    | .cmd i a => .cmd (if i = find then repl else i) a
    | .branch i t => .branch (if i = find then repl else i) t
    | s => s)

/-- Per-buffer processing of the link pass (pcc.py lines 1293-1296):
`drop_unused_tags(tags.copy())`, then `reduce()` when reduction is enabled. -/
def processBuf (seed : List (Nat × Nat)) (doReduce : Bool) (b : List AsmStmt) :
    Option (List AsmStmt) :=
  let b2 := dropUnusedTags b seed
  if doReduce then reduce b2 else some b2

/-- The per-buffer loop of pcc.py lines 1293-1296 over a buffer list. -/
def processAll (seed : List (Nat × Nat)) (doReduce : Bool) :
    List (List AsmStmt) → Option (List (List AsmStmt))
  | [] => some []
  | b :: bs =>
    match processBuf seed doReduce b, processAll seed doReduce bs with
    | some b2, some bs2 => some (b2 :: bs2)
    | _, _ => none

/-- The buffer-level link pass of `pcc()` (pcc.py lines 1288-1303).  Inputs:
the init buffer, main's buffer, the retained user-defined functions as
`(entry tag id, buffer)` pairs, and the instantiated emulated-helper buffers.
Steps: seed the tag-use map with one use per retained user function's entry
tag (main's entry tag and helper entry tags are NOT seeded); run
`drop_unused_tags` + optional `reduce` over main's and the user functions'
buffers ONLY; replace `RET` by `HALT` in main's processed buffer and append it
to the init buffer; the final buffer sequence is init+main, user functions,
then the helper buffers (untouched). -/
def linkPass (initBuf mainBuf : List AsmStmt) (userFuncs : List (Nat × List AsmStmt))
    (helperBufs : List (List AsmStmt)) (doReduce : Bool) :
    Option (List (List AsmStmt)) :=
  let seed := userFuncs.map (fun f => (f.1, 1))
  match processBuf seed doReduce mainBuf,
        processAll seed doReduce (userFuncs.map Prod.snd) with
  | some mainB, some userBufs =>
    some ((initBuf ++ replaceInstruction "RET" "HALT" mainB) :: userBufs ++ helperBufs)
  | _, _ => none

example :
    linkPass [] [.cmd "HALT" [.str "0"]] [] [] true = some [[.cmd "HALT" [.str "0"]]] := by
  decide
example :
    linkPass [] [.cmd "RET" []] [] [[.tag 5, .cmd "RET" [], .cmd "RET" []]] true =
      some [[.cmd "HALT" []], [.tag 5, .cmd "RET" [], .cmd "RET" []]] := by
  decide
example : pccTagAssign [[.tag 7, .branch "JMP" 7]] = [(7, 0)] := by decide
example : pccTagAssign [[.tag 7], [.tag 3, .tag 4]] = [(7, 0), (3, 10), (4, 11)] := by decide

/-! ## Dead-function elimination (pcc.py lines 1260-1275) -/

/-- A `UserDefFunction` as seen by the drop loop: its name and its `caller`
set (names of user functions that call it; `main` never appears in this list
of candidates itself, and self-calls are not recorded, pcc.py line 1066). -/
structure UFunc where
  name : String
  callerSet : List String
deriving DecidableEq, Repr

/-- `function.caller -= func_names_dropped` applied to every passed function
(pcc.py lines 1271-1272). -/
def subtractCallers (dropped : List String) (fs : List UFunc) : List UFunc :=
  fs.map (fun f => UFunc.mk f.name (f.callerSet.filter (fun c => !(dropped.contains c))))

/-- The `while` loop of pcc.py lines 1261-1275 (without the emulated-helper
bookkeeping, which does not affect which user functions are retained): split
the candidate list into functions with a non-empty caller set (passed) and
the rest (dropped); stop when nothing was dropped; otherwise subtract the
dropped names from the survivors' caller sets and repeat.  `fuel` bounds the
iteration count; every productive iteration strictly shrinks the list, so
`length + 1` fuel is enough. -/
def dropUncalledGo : Nat → List UFunc → List UFunc
  | 0, fs => fs
  | fuel + 1, fs =>
    if fs.isEmpty then fs
    else
      let passed := fs.filter (fun f => !f.callerSet.isEmpty)
      let dropped := (fs.filter (fun f => f.callerSet.isEmpty)).map UFunc.name
      if dropped.isEmpty then fs
      else dropUncalledGo fuel (subtractCallers dropped passed)

/-- The retained user-defined functions (besides `main`) after the incremental
drop loop of `pcc()`. -/
def dropUncalledFuncs (fs : List UFunc) : List UFunc :=
  dropUncalledGo (fs.length + 1) fs

/-- Reachability from `main` through the caller relation: `f` is reachable
when `main` is recorded as one of its callers, or some reachable function is.
This is the "path of `CALL` operands from `main`" of the specification. -/
inductive ReachableFromMain (funcs : List UFunc) : String → Prop
  | direct (f : UFunc) (hf : f ∈ funcs) (hm : "main" ∈ f.callerSet) :
      ReachableFromMain funcs f.name
  | step (f : UFunc) (hf : f ∈ funcs) (g : String)
      (hg : ReachableFromMain funcs g) (hc : g ∈ f.callerSet) :
      ReachableFromMain funcs f.name

example : dropUncalledFuncs [UFunc.mk "f" ["g"], UFunc.mk "g" ["f"]] =
    [UFunc.mk "f" ["g"], UFunc.mk "g" ["f"]] := by decide
example : dropUncalledFuncs [UFunc.mk "f" ["main"], UFunc.mk "g" ["f"], UFunc.mk "h" []] =
    [UFunc.mk "f" ["main"], UFunc.mk "g" ["f"]] := by decide
example : dropUncalledFuncs [UFunc.mk "h" [], UFunc.mk "g" ["h"]] = [] := by decide

/-! ## Constant folding (`AstCompiler.try_parse_constant`, pcc.py lines 745-760) -/

/-- Value of a hexadecimal digit character. -/
def hexDigitVal (c : Char) : Option Nat :=
  if '0' ≤ c ∧ c ≤ '9' then some (c.toNat - '0'.toNat)
  else if 'a' ≤ c ∧ c ≤ 'f' then some (c.toNat - 'a'.toNat + 10)
  else if 'A' ≤ c ∧ c ≤ 'F' then some (c.toNat - 'A'.toNat + 10)
  else none

/-- Accumulate digit characters in the given base. -/
def digitsValGo (base : Nat) : Nat → List Char → Option Nat
  | acc, [] => some acc
  | acc, c :: cs =>
    match hexDigitVal c with
    | some d => if d < base then digitsValGo base (base * acc + d) cs else none
    | none => none

/-- Parse a non-empty digit string in the given base. -/
def digitsVal (base : Nat) (l : List Char) : Option Nat :=
  if l.isEmpty then none else digitsValGo base 0 l

/-- Magnitude part of Python `int(s, 0)`: a `0x`/`0b`/`0o` prefix selects the
base; a plain leading zero is only legal when the whole string is zeros;
otherwise decimal.  (Underscore separators and surrounding whitespace, which
Python also accepts, are not modelled; no input the compiler builds uses
them.) -/
def pyIntCore : List Char → Option Nat
  | '0' :: 'x' :: rest => digitsVal 16 rest
  | '0' :: 'X' :: rest => digitsVal 16 rest
  | '0' :: 'b' :: rest => digitsVal 2 rest
  | '0' :: 'B' :: rest => digitsVal 2 rest
  | '0' :: 'o' :: rest => digitsVal 8 rest
  | '0' :: 'O' :: rest => digitsVal 8 rest
  | '0' :: rest => if rest.all (· = '0') then some 0 else none
  | l => digitsVal 10 l

/-- Python `int(s, 0)` with an optional sign.  `none` models a `ValueError`. -/
def pyIntBase0 (s : String) : Option Int :=
  match s.data with
  | '-' :: rest => (pyIntCore rest).map (fun n => -(n : Int))
  | '+' :: rest => (pyIntCore rest).map (fun n => (n : Int))
  | l => (pyIntCore l).map (fun n => (n : Int))

example : pyIntBase0 "17" = some 17 := by decide
example : pyIntBase0 "-5" = some (-5) := by decide
example : pyIntBase0 "0x1f" = some 31 := by decide
example : pyIntBase0 "0" = some 0 := by decide
example : pyIntBase0 "017" = none := by decide
example : pyIntBase0 "" = none := by decide

/-- Symbols that `try_parse_constant` / `try_parse_term` can meet in scope:
an `EnumSymbol` (with its decimal-string `const_value`) or a
`VariableSymbol` whose `asm_repr()` is the given operand (an `AsmVar` for a
`VmVariableSymbol`, a `pN` string for a `VmParameterSymbol`). -/
inductive ScopeSym
  | enumSym (constValue : String)
  | varSym (asmRepr : Arg)
deriving DecidableEq, Repr

/-- A scope: `find_symbol` by name. -/
def Scope := String → Option ScopeSym

/-- `find_symbol(name, filter=EnumSymbol)`. -/
def findEnumSym (scope : Scope) (name : String) : Option String :=
  match scope name with
  | some (.enumSym v) => some v
  | _ => none

/-- `find_symbol(name, filter=VariableSymbol)`. -/
def findVarSym (scope : Scope) (name : String) : Option Arg :=
  match scope name with
  | some (.varSym r) => some r
  | _ => none

/-- The expression fragment `try_parse_constant` examines: a `c_ast.Constant`
(with its `type` string, e.g. "int"), a `c_ast.ID`, or a `c_ast.UnaryOp`
applied to a sub-expression. -/
inductive CNode
  | constant (typ : String) (value : String)
  | id (name : String)
  | unaryOp (op : String) (expr : CNode)
deriving DecidableEq, Repr

/-- `AstCompiler.try_parse_constant(node)` (pcc.py lines 745-760): an integer
literal, an identifier bound to an enum constant, or unary `-` applied to a
literal (of any `Constant` type, the source does not re-check `type`) or enum
identifier, negated via `str(-int(v, 0))`.  A Python `ValueError` from `int`
(dead for compiler-generated enum values and pycparser int literals without
odd suffixes) is modelled as `none`. -/
def tryParseConstant (scope : Scope) : CNode → Option String
  | .constant typ v => if typ = "int" then some v else none
  | .id name => findEnumSym scope name
  | .unaryOp op e =>
    if op = "-" then
      match e with
      | .constant _ v => (pyIntBase0 v).map (fun i => toString (-i))
      | .id name =>
        match findEnumSym scope name with
        | some v => (pyIntBase0 v).map (fun i => toString (-i))
        | none => none
      | _ => none
    else none

/-- `AstCompiler.try_parse_term(node)` (pcc.py lines 762-769): a constant, or
an identifier bound to a variable/parameter (raising "undeclared variable"
when an identifier is bound to neither); other node kinds are simply not
terms.  Errors are `Except.error` (a raised `PccError`). -/
def tryParseTerm (scope : Scope) (n : CNode) : Except String (Option Arg) :=
  match tryParseConstant scope n with
  | some r => .ok (some (.str r))
  | none =>
    match n with
    | .id name =>
      match findVarSym scope name with
      | some r => .ok (some r)
      | none => .error "undeclared variable"
    | _ => .ok none

example : tryParseConstant (fun _ => none) (.unaryOp "-" (.constant "int" "5")) =
    some "-5" := by decide
example :
    tryParseConstant (fun n => if n = "E" then some (.enumSym "7") else none)
      (.unaryOp "-" (.id "E")) = some "-7" := by decide

/-! ## VM-API functions (pcc.py lines 408-511) and the FuncCall compiler -/

/-- An error during compilation: a raised `PccError` (caught and logged by the
compiler, making the run fail), or an uncaught Python exception (a crash).
The second constructor also covers the parts of the compiler outside the
embedded fragment (general expression lowering), which no claim exercises. -/
inductive CompErr
  | pccError (msg : String)
  | crash (msg : String)
deriving DecidableEq, Repr

/-- `VmApiFunction.VM_FUNCTION_INSTR_CIS` (pcc.py lines 409-463). -/
def vmFunctionInstrCis : List (String × String) :=
  [("gpioSetMode", "MODES"), ("gpioGetMode", "MODEG"), ("gpioSetPullUpDown", "PUD"),
   ("gpioRead", "READ"), ("gpioWrite", "WRITE"),
   ("gpioPWM", "PWM"), ("gpioSetPWMfrequency", "PFS"), ("gpioSetPWMrange", "PRS"),
   ("gpioGetPWMdutycycle", "GDC"), ("gpioGetPWMfrequency", "PFG"),
   ("gpioGetPWMrange", "PRG"), ("gpioGetPWMrealRange", "PRRG"),
   ("gpioServo", "SERVO"), ("gpioGetServoPulsewidth", "GPW"),
   ("gpioTrigger", "TRIG"), ("gpioSetWatchdog", "WDOG"),
   ("gpioRead_Bits_0_31", "BR1"), ("gpioRead_Bits_32_53", "BR2"),
   ("gpioWrite_Bits_0_31_Clear", "BC1"), ("gpioWrite_Bits_32_53_Clear", "BC2"),
   ("gpioWrite_Bits_0_31_Set", "BS1"), ("gpioWrite_Bits_32_53_Set", "BS2"),
   ("gpioNotifyOpen", "NO"), ("gpioNotifyClose", "NC"), ("gpioNotifyBegin", "NB"),
   ("gpioNotifyPause", "NP"), ("gpioHardwareClock", "HC"), ("gpioHardwarePWM", "HP"),
   ("gpioGlitchFilter", "FG"), ("gpioNoiseFilter", "FN"),
   ("gpioSetPad", "PADS"), ("gpioGetPad", "PADG"),
   ("eventMonitor", "EVM"), ("eventTrigger", "EVT"),
   ("i2cOpen", "I2CO"), ("i2cClose", "I2CC"), ("i2cWriteQuick", "I2CWQ"),
   ("i2cReadByte", "I2CRS"), ("i2cWriteByte", "I2CWS"), ("i2cReadByteData", "I2CRB"),
   ("i2cWriteByteData", "I2CWB"), ("i2cReadWordData", "I2CRW"),
   ("i2cWriteWordData", "I2CWW"), ("i2cProcessCall", "I2CPC"),
   ("gpioHardwareRevision", "HWVER"), ("gpioDelay_us", "MICS"), ("gpioDelay_ms", "MILS"),
   ("gpioVersion", "PIGPV"), ("gpioTick", "TICK"),
   ("gpioCfgGetInternals", "CGI"), ("gpioCfgSetInternals", "CSI"),
   ("gpioWait", "WAIT"), ("eventWait", "EVTWT"), ("exit", "HALT")]

/-- Assoc lookup on the instruction table. -/
def lookupStr : List (String × String) → String → Option String
  | [], _ => none
  | (k, v) :: m, t => if k = t then some v else lookupStr m t

/-- `VmApiFunction.asm_repr()` for the classic instruction set (pcc.py lines
476-485 with `use_cis = True`): look the function name up in
`VM_FUNCTION_INSTR_CIS`, raising `PccError` when missing. -/
def vmAsmReprCis (funcName : String) : Except CompErr String :=
  match lookupStr vmFunctionInstrCis funcName with
  | some i => .ok i
  | none => .error (.pccError ("undefined VM function " ++ funcName))

/-- `s[k]` on a Python string for an in-range non-negative index. -/
def strCharAt (s : String) (k : Nat) : String :=
  ((s.data.getD k '?').toString)

/-- `VmApiFunction._map_argument_cis_gpioSetMode` (pcc.py lines 487-498):
for argument index 1, a missing compile-time constant raises `PccError`;
a constant in 0..7 is remapped to the character of "RW540123" at that index;
any other constant is returned unchanged. -/
def mapArgumentCisGpioSetMode (iArg : Nat) (constArg : Option String) :
    Except CompErr (Option String) :=
  if iArg = 1 then
    match constArg with
    | none => .error (.pccError "compile-time constant required for 2nd argument")
    | some s =>
      match pyIntBase0 s with
      | none => .error (.crash "ValueError in int(const_arg, 0)")
      | some k =>
        if 0 ≤ k ∧ k ≤ 7 then .ok (some (strCharAt "RW540123" k.toNat))
        else .ok (some s)
  else .ok constArg

/-- `VmApiFunction._map_argument_cis_gpioSetPullUpDown` (pcc.py lines
500-511): same shape with range 0..2 and characters "ODU". -/
def mapArgumentCisGpioSetPullUpDown (iArg : Nat) (constArg : Option String) :
    Except CompErr (Option String) :=
  if iArg = 1 then
    match constArg with
    | none => .error (.pccError "compile-time constant required for 2nd argument")
    | some s =>
      match pyIntBase0 s with
      | none => .error (.crash "ValueError in int(const_arg, 0)")
      | some k =>
        if 0 ≤ k ∧ k ≤ 2 then .ok (some (strCharAt "ODU" k.toNat))
        else .ok (some s)
  else .ok constArg

/-- `function.map_argument` under the classic instruction set (pcc.py lines
473-474): defined only for gpioSetMode and gpioSetPullUpDown. -/
def mapArgumentCis (funcName : String) :
    Option (Nat → Option String → Except CompErr (Option String)) :=
  if funcName = "gpioSetMode" then some mapArgumentCisGpioSetMode
  else if funcName = "gpioSetPullUpDown" then some mapArgumentCisGpioSetPullUpDown
  else none

/-- A `VmApiFunction` as the FuncCall compiler sees it: name, `arg_count` and
`has_return` come from the prototype declared in `vm_api.h`. -/
structure VmFn where
  funcName : String
  argCount : Nat
  hasReturn : Bool
deriving DecidableEq, Repr

/-- Argument lowering of the VM-API branch of `_compile_FuncCall_node`
(pcc.py lines 1050-1060) under `use_cis = True`: per argument, first ask the
function's literal remapper (when it has one) about the parsed compile-time
constant; a `None` answer falls back to `try_parse_term`; a non-term argument
would be compiled into `ARG_REGS[i]` through the general expression compiler,
which is outside the embedded fragment (no claim reaches it). -/
def compileVmArgs (scope : Scope) (funcName : String) :
    List CNode → Nat → Except CompErr (List Arg)
  | [], _ => .ok []
  | e :: rest, iArg => do
    let mapped : Option String ←
      match mapArgumentCis funcName with
      | some f => f iArg (tryParseConstant scope e)
      | none => pure none
    let arg : Arg ←
      match mapped with
      | some t => pure (.str t)
      | none =>
        match tryParseTerm scope e with
        | .ok (some a) => pure a
        | .ok none => .error (.crash "non-term argument: outside embedded fragment")
        | .error m => .error (.pccError m)
    let restArgs ← compileVmArgs scope funcName rest (iArg + 1)
    .ok (arg :: restArgs)

/-- `_compile_FuncCall_node` for a `VmApiFunction` (pcc.py lines 1035-1064,
`use_cis = True`): check the expression-context return-value rule and the
argument count, lower the arguments, emit the mnemonic, and report `True`
("terminated") exactly when the mnemonic is `HALT`. -/
def compileVmApiFuncCall (scope : Scope) (fn : VmFn) (argExprs : List CNode)
    (inExpression : Bool) : Except CompErr (List AsmStmt × Bool) := do
  if inExpression ∧ ¬fn.hasReturn then
    .error (.pccError "function declared without return value")
  else if fn.argCount ≠ argExprs.length then
    .error (.pccError "wrong number of arguments")
  else
    let instr ← vmAsmReprCis fn.funcName
    let args ← compileVmArgs scope fn.funcName argExprs 0
    .ok ([AsmStmt.cmd instr args], instr = "HALT")

/-- Statement fragment needed by the claims: a function-call statement.
(Other statement kinds of `compile_statement` are not exercised by any
claim.) -/
inductive CStmt
  | funcCall (name : String) (args : List CNode)
deriving DecidableEq, Repr

/-- Function environment: `find_symbol(name, filter=FunctionSymbol)` restricted
to VM-API functions (the fragment the claims exercise). -/
def FEnv := String → Option VmFn

/-- `compile_statement` on the fragment: dispatch a `FuncCall` node
(pcc.py lines 849-854 and 1035 ff.), in statement context. -/
def compileCStmt (scope : Scope) (fenv : FEnv) : CStmt → Except CompErr (List AsmStmt × Bool)
  | .funcCall name args =>
    match fenv name with
    | none => .error (.pccError ("undeclared function " ++ name))
    | some fn => compileVmApiFuncCall scope fn args false

/-- `_compile_Compound_node` (pcc.py lines 929-949) on the fragment: lower the
block items in order; after a terminated statement the remaining items are
unreachable (a warning is logged and the loop breaks).  A `PccError` makes
the whole run fail (the source logs it and later aborts on the error count;
buffer contents after a logged error are never emitted). -/
def compileCompound (scope : Scope) (fenv : FEnv) :
    List CStmt → Except CompErr (List AsmStmt × Bool)
  | [] => .ok ([], false)
  | s :: rest => do
    let (stmts, returned) ← compileCStmt scope fenv s
    if returned then .ok (stmts, true)
    else do
      let (stmts2, returned2) ← compileCompound scope fenv rest
      .ok (stmts ++ stmts2, returned2)

/-- `_compile_FuncDef_node` (pcc.py lines 1000-1033) for a function without
arguments: emit `TAG <entry>` unless the function is `main` (lines
1011-1012), lower the body, and append `RET` when the body did not end in a
terminator (line 1026). -/
def compileFuncDefBuf (funcName : String) (entryTag : Nat) (scope : Scope)
    (fenv : FEnv) (body : List CStmt) : Except CompErr (List AsmStmt) := do
  let headStmts := if funcName = "main" then [] else [AsmStmt.tag entryTag]
  let (bodyStmts, returned) ← compileCompound scope fenv body
  .ok (headStmts ++ bodyStmts ++ (if returned then [] else [AsmStmt.cmd "RET" []]))

/-- The VM-API function environment used by the concrete scenarios.  The
prototypes (argument counts, return types) are declared in `vm_api.h`, which
is not part of src/.  Modelled from the spec: `int gpioSetMode(unsigned gpio,
unsigned mode)` and `int gpioSetPullUpDown(unsigned gpio, unsigned pud)` (two
arguments each, pcc.py lines 489 and 502 quote these prototypes), and `exit`
taking one argument as in the spec scenario `exit(0)`, with `void` return. -/
def demoFEnv : FEnv := fun n =>
  if n = "exit" then some (VmFn.mk "exit" 1 false)
  else if n = "gpioSetMode" then some (VmFn.mk "gpioSetMode" 2 true)
  else if n = "gpioSetPullUpDown" then some (VmFn.mk "gpioSetPullUpDown" 2 true)
  else none

/-- The empty scope of `void main(void) { exit(0); }`. -/
def emptyScope : Scope := fun _ => none

example :
    compileFuncDefBuf "main" 0 emptyScope demoFEnv
        [.funcCall "exit" [.constant "int" "0"]] =
      .ok [.cmd "HALT" [.str "0"]] := rfl
example :
    compileVmApiFuncCall emptyScope (VmFn.mk "gpioSetMode" 2 true)
        [.constant "int" "17", .constant "int" "1"] false =
      .ok ([.cmd "MODES" [.str "17", .str "W"]], false) := rfl
example :
    compileVmApiFuncCall emptyScope (VmFn.mk "gpioSetMode" 2 true)
        [.constant "int" "17", .constant "int" "8"] false =
      .ok ([.cmd "MODES" [.str "17", .str "8"]], false) := rfl

/-! ## Lemmas about the reducer -/

theorem reduceStep_fst_ne_nil (prev : AsmStmt) (outTail : List AsmStmt) (curr : AsmStmt)
    (rest' : List AsmStmt) : (reduceStep prev outTail curr rest').1 ≠ [] := by
  unfold reduceStep
  split
  · split <;> simp
  · split
    · simp [replaceTagL]
    · split
      · split
        · rename_i hlen
          have h1 := (Bool.and_eq_true _ _).mp hlen |>.1
          have h3 : 2 < outTail.length + 1 := by simpa using of_decide_eq_true h1
          have h4 : outTail ≠ [] := by
            intro hnil
            rw [hnil] at h3
            simp at h3
          simpa [replaceTagL, List.map_eq_nil_iff] using h4
        · simp
      · simp
    · split <;> simp
    · simp

theorem reduceGo_ne_nil : ∀ (fuel : Nat) (rest revOut : List AsmStmt),
    revOut ≠ [] → reduceGo fuel revOut rest ≠ [] := by
  intro fuel
  induction fuel with
  | zero =>
    intro rest revOut h
    cases rest with
    | nil => simpa [reduceGo] using h
    | cons c cs => simp [reduceGo]
  | succ fuel ih =>
    intro rest revOut h
    cases rest with
    | nil => simpa [reduceGo] using h
    | cons curr rest' =>
      cases revOut with
      | nil => exact absurd rfl h
      | cons prev outTail =>
        rw [reduceGo]
        exact ih _ _ (reduceStep_fst_ne_nil prev outTail curr rest')

/-- Step lemma for `reduceStep` when neither statement is a tag: only the
`AsmCmd`-pair rules apply. -/
theorem reduceStep_cmds (prev curr : AsmStmt) (outTail rest' : List AsmStmt)
    (hp : isTagStmt prev = false) (hc : isTagStmt curr = false) :
    reduceStep prev outTail curr rest' =
      if pairMatch prev curr then (prev :: outTail, rest')
      else (curr :: prev :: outTail, rest') := by
  unfold reduceStep
  have hcmd : (stmtIsCmd prev && stmtIsCmd curr) = true := by
    simp [stmtIsCmd, hp, hc]
  rw [if_pos hcmd]

/-- Step lemma for `reduceGo` when neither statement is a tag. -/
theorem reduceGo_step_cmds (fuel : Nat) (prev curr : AsmStmt) (outTail rest : List AsmStmt)
    (hp : isTagStmt prev = false) (hc : isTagStmt curr = false) :
    reduceGo (fuel + 1) (prev :: outTail) (curr :: rest) =
      if pairMatch prev curr then reduceGo fuel (prev :: outTail) rest
      else reduceGo fuel (curr :: prev :: outTail) rest := by
  rw [reduceGo, reduceStep_cmds prev curr outTail rest hp hc]
  by_cases hpm : pairMatch prev curr = true
  · rw [if_pos hpm, if_pos hpm]
  · rw [if_neg hpm, if_neg hpm]

/-- A run of the reducer over tag-free statements produces tag-free output in
which no adjacent pair matches a rule. -/
theorem reduceGo_noTag_chain : ∀ (fuel : Nat) (rest revOut : List AsmStmt),
    rest.length ≤ fuel →
    (∀ s ∈ rest, isTagStmt s = false) → (∀ s ∈ revOut, isTagStmt s = false) →
    List.Chain' (fun a b => pairMatch b a = false) revOut →
    (∀ s ∈ reduceGo fuel revOut rest, isTagStmt s = false) ∧
      List.Chain' (fun a b => pairMatch a b = false) (reduceGo fuel revOut rest) := by
  intro fuel
  induction fuel with
  | zero =>
    intro rest revOut hlen hr ho hch
    have hrest : rest = [] := List.length_eq_zero.mp (Nat.le_zero.mp hlen)
    subst hrest
    rw [reduceGo]
    refine ⟨fun s hs => ho s (by simpa using hs), ?_⟩
    rw [List.chain'_reverse]
    exact hch
  | succ fuel ih =>
    intro rest revOut hlen hr ho hch
    cases rest with
    | nil =>
      rw [reduceGo]
      refine ⟨fun s hs => ho s (by simpa using hs), ?_⟩
      rw [List.chain'_reverse]
      exact hch
    | cons curr rest' =>
      have hc : isTagStmt curr = false := hr curr (by simp)
      have hr' : ∀ s ∈ rest', isTagStmt s = false := fun s hs => hr s (by simp [hs])
      have hlen' : rest'.length ≤ fuel := by simpa using hlen
      cases revOut with
      | nil =>
        rw [reduceGo]
        exact ih rest' [curr] hlen' hr'
          (fun s hs => by simp at hs; subst hs; exact hc) (by simp)
      | cons prev outTail =>
        have hp : isTagStmt prev = false := ho prev (by simp)
        rw [reduceGo_step_cmds fuel prev curr outTail rest' hp hc]
        by_cases hpm : pairMatch prev curr = true
        · rw [if_pos hpm]
          exact ih rest' (prev :: outTail) hlen' hr' ho hch
        · have hpm' : pairMatch prev curr = false := by simpa using hpm
          rw [if_neg (by simp [hpm'])]
          refine ih rest' (curr :: prev :: outTail) hlen' hr' ?_ ?_
          · intro s hs
            rcases List.mem_cons.mp hs with h1 | h1
            · subst h1; exact hc
            · exact ho s h1
          · exact List.chain'_cons.mpr ⟨hpm', hch⟩

/-- On a tag-free input whose adjacent pairs match no rule, the reducer is the
identity (up to the accumulator bookkeeping). -/
theorem reduceGo_stable : ∀ (fuel : Nat) (rest : List AsmStmt) (p : AsmStmt)
    (outTail : List AsmStmt),
    rest.length ≤ fuel →
    (∀ s ∈ rest, isTagStmt s = false) → isTagStmt p = false →
    List.Chain' (fun a b => pairMatch a b = false) (p :: rest) →
    reduceGo fuel (p :: outTail) rest = (p :: outTail).reverse ++ rest := by
  intro fuel
  induction fuel with
  | zero =>
    intro rest p outTail hlen hr hp hch
    have hrest : rest = [] := List.length_eq_zero.mp (Nat.le_zero.mp hlen)
    subst hrest
    rw [reduceGo]
    simp
  | succ fuel ih =>
    intro rest p outTail hlen hr hp hch
    cases rest with
    | nil =>
      rw [reduceGo]
      simp
    | cons curr rest' =>
      have hc : isTagStmt curr = false := hr curr (by simp)
      have hrel : pairMatch p curr = false := (List.chain'_cons.mp hch).1
      rw [reduceGo_step_cmds fuel p curr outTail rest' hp hc, if_neg (by simp [hrel])]
      rw [ih rest' curr (p :: outTail) (by simpa using hlen)
        (fun s hs => hr s (by simp [hs])) hc (List.chain'_cons.mp hch).2]
      simp

/-! ## Lemmas about dead-function elimination -/

theorem filter_neg_length_lt (p : UFunc → Bool) (l : List UFunc)
    (h : l.filter p ≠ []) : (l.filter (fun a => !(p a))).length < l.length := by
  induction l with
  | nil => simp at h
  | cons a l ih =>
    by_cases hpa : p a = true
    · rw [List.filter_cons_of_neg (by simp [hpa])]
      calc (l.filter fun a => !(p a)).length
          ≤ l.length := List.length_filter_le _ _
        _ < (a :: l).length := by simp
    · have hpa' : p a = false := by simpa using hpa
      have h2 : l.filter p ≠ [] := by
        intro hnil
        apply h
        rw [List.filter_cons_of_neg (by simp [hpa']), hnil]
      have := ih h2
      rw [List.filter_cons_of_pos (by simp [hpa'])]
      simpa using Nat.succ_lt_succ this

theorem subtractCallers_length (d : List String) (fs : List UFunc) :
    (subtractCallers d fs).length = fs.length := List.length_map ..

/-- At the fixpoint of the drop loop, every surviving function has a
non-empty caller set. -/
theorem dropUncalledGo_callers_ne_nil : ∀ (fuel : Nat) (fs : List UFunc),
    fs.length < fuel → ∀ f ∈ dropUncalledGo fuel fs, f.callerSet ≠ [] := by
  intro fuel
  induction fuel with
  | zero => intro fs h; omega
  | succ fuel ih =>
    intro fs hlen f hf
    rw [dropUncalledGo] at hf
    by_cases hemp : fs.isEmpty
    · rw [if_pos hemp] at hf
      have : fs = [] := by simpa using hemp
      subst this
      simp at hf
    · rw [if_neg hemp] at hf
      by_cases hd : ((fs.filter (fun g => g.callerSet.isEmpty)).map UFunc.name).isEmpty
      · rw [if_pos hd] at hf
        have h1 : (fs.filter (fun g => g.callerSet.isEmpty)).map UFunc.name = [] := by
          simpa using hd
        have h2 : fs.filter (fun g => g.callerSet.isEmpty) = [] :=
          List.map_eq_nil_iff.mp h1
        have h3 := List.filter_eq_nil_iff.mp h2 f hf
        simpa using h3
      · rw [if_neg hd] at hf
        have hfil : fs.filter (fun g => g.callerSet.isEmpty) ≠ [] := by
          intro hnil
          apply hd
          simp [hnil]
        have hlt : (subtractCallers ((fs.filter (fun g => g.callerSet.isEmpty)).map UFunc.name)
            (fs.filter (fun g => !g.callerSet.isEmpty))).length < fuel := by
          rw [subtractCallers_length]
          have h5 : (fs.filter (fun g => !g.callerSet.isEmpty)).length < fs.length := by
            simpa using filter_neg_length_lt (fun g => g.callerSet.isEmpty) fs hfil
          omega
        exact ih _ hlt f hf

/-! ## Lemmas about tag binding -/

theorem bindTagsList_ge : ∀ (b : List AsmStmt) (base : Nat) (p : Nat × Nat),
    p ∈ bindTagsList b base → base ≤ p.2 := by
  intro b
  induction b with
  | nil => intro base p hp; simp [bindTagsList] at hp
  | cons s rest ih =>
    intro base p hp
    cases s with
    | tag t =>
      rw [bindTagsList] at hp
      rcases List.mem_cons.mp hp with h1 | h1
      · subst h1; simp
      · have := ih (base + 1) p h1
        omega
    | cmd i a =>
      rw [bindTagsList] at hp
      exact ih base p hp
    | branch i t =>
      rw [bindTagsList] at hp
      exact ih base p hp

theorem bindTagsList_lt : ∀ (b : List AsmStmt) (base : Nat) (p : Nat × Nat),
    p ∈ bindTagsList b base → p.2 < base + numTags b := by
  intro b
  induction b with
  | nil => intro base p hp; simp [bindTagsList] at hp
  | cons s rest ih =>
    intro base p hp
    cases s with
    | tag t =>
      rw [bindTagsList] at hp
      have hn : numTags (AsmStmt.tag t :: rest) = numTags rest + 1 := by
        simp [numTags, isTagStmt]
      rcases List.mem_cons.mp hp with h1 | h1
      · subst h1; omega
      · have := ih (base + 1) p h1
        omega
    | cmd i a =>
      rw [bindTagsList] at hp
      have hn : numTags (AsmStmt.cmd i a :: rest) = numTags rest := by
        simp [numTags, isTagStmt]
      have := ih base p hp
      omega
    | branch i t =>
      rw [bindTagsList] at hp
      have hn : numTags (AsmStmt.branch i t :: rest) = numTags rest := by
        simp [numTags, isTagStmt]
      have := ih base p hp
      omega

/-- Once the running base has reached 10, every later binding is at least 10
(the next base `((base + n + 10) / 10) * 10` is always at least 10). -/
theorem linkBindTags_ge : ∀ (bs : List (List AsmStmt)) (base : Nat),
    10 ≤ base → ∀ p ∈ linkBindTags bs base, 10 ≤ p.2 := by
  intro bs
  induction bs with
  | nil => intro base hb p hp; simp [linkBindTags] at hp
  | cons b rest ih =>
    intro base hb p hp
    rw [linkBindTags] at hp
    rcases List.mem_append.mp hp with h1 | h1
    · have := bindTagsList_ge b base p h1
      omega
    · refine ih _ ?_ p h1
      have h10 : 1 ≤ (base + numTags b + 10) / 10 :=
        (Nat.one_le_div_iff (by norm_num)).mpr (by omega)
      omega

theorem nextBase_ge_ten (base n : Nat) : 10 ≤ ((base + n + 10) / 10) * 10 := by
  have h10 : 1 ≤ (base + n + 10) / 10 :=
    (Nat.one_le_div_iff (by norm_num)).mpr (by omega)
  omega

/-! ## Lemmas about drop_unused_tags seeding and the link pass -/

theorem lookupA_setA_self (m : List (Nat × Nat)) (k v : Nat) :
    lookupA (setA m k v) k = some v := by
  induction m with
  | nil => simp [setA, lookupA]
  | cons kv m ih =>
    by_cases h : kv.1 = k
    · simp [setA, h, lookupA]
    · simp [setA, h, lookupA, ih]

theorem lookupA_setA_ne (m : List (Nat × Nat)) (k v t : Nat) (h : k ≠ t) :
    lookupA (setA m k v) t = lookupA m t := by
  induction m with
  | nil => simp [setA, lookupA, h]
  | cons kv m ih =>
    by_cases h2 : kv.1 = k
    · simp [setA, h2, lookupA, h]
    · simp only [setA, h2, if_neg h2, lookupA]
      by_cases h3 : kv.1 = t
      · simp [h3]
      · simp [h3, ih]

/-- The counting pass of `drop_unused_tags` never decreases an existing
count. -/
theorem countTags_mono : ∀ (stmts : List AsmStmt) (m : List (Nat × Nat)) (t v : Nat),
    lookupA m t = some v →
    ∃ v2, lookupA (countTags stmts m) t = some v2 ∧ v ≤ v2 := by
  intro stmts
  induction stmts with
  | nil => intro m t v h; exact ⟨v, h, le_rfl⟩
  | cons s rest ih =>
    intro m t v h
    cases s with
    | tag u =>
      rw [countTags]
      cases hu : lookupA m u with
      | none =>
        have hne : u ≠ t := by
          intro he; subst he; rw [h] at hu; exact Option.noConfusion hu
        exact ih _ t v (by rw [lookupA_setA_ne m u 0 t hne]; exact h)
      | some w => exact ih _ t v h
    | branch i u =>
      rw [countTags]
      cases hu : lookupA m u with
      | none =>
        have hne : u ≠ t := by
          intro he; subst he; rw [h] at hu; exact Option.noConfusion hu
        exact ih _ t v (by rw [lookupA_setA_ne m u 1 t hne]; exact h)
      | some w =>
        by_cases he : u = t
        · subst he
          rw [h] at hu
          injection hu with hvw
          subst hvw
          obtain ⟨v2, h2, h3⟩ := ih (setA m u (v + 1)) u (v + 1) (lookupA_setA_self m u (v + 1))
          exact ⟨v2, h2, by omega⟩
        · exact ih _ t v (by rw [lookupA_setA_ne m u (w + 1) t (by exact he)]; exact h)
    | cmd i a =>
      rw [countTags]
      exact ih m t v h

/-- A tag whose seed count is at least one is never deleted by
`drop_unused_tags`. -/
theorem dropUnusedTags_keeps_seeded (stmts : List AsmStmt) (seed : List (Nat × Nat))
    (t v : Nat) (hseed : lookupA seed t = some v) (hv : 1 ≤ v)
    (hmem : AsmStmt.tag t ∈ stmts) :
    AsmStmt.tag t ∈ dropUnusedTags stmts seed := by
  obtain ⟨v2, h2, h3⟩ := countTags_mono stmts seed t v hseed
  unfold dropUnusedTags
  refine List.mem_filter.mpr ⟨hmem, ?_⟩
  cases v2 with
  | zero => omega
  | succ n => simp [h2]

theorem processAll_length : ∀ (seed : List (Nat × Nat)) (r : Bool)
    (bs out : List (List AsmStmt)), processAll seed r bs = some out →
    out.length = bs.length := by
  intro seed r bs
  induction bs with
  | nil =>
    intro out h
    rw [processAll] at h
    injection h with h2
    subst h2
    rfl
  | cons b rest ih =>
    intro out h
    rw [processAll] at h
    cases hb : processBuf seed r b with
    | none => rw [hb] at h; exact absurd h (by simp)
    | some b2 =>
      cases hr : processAll seed r rest with
      | none => rw [hb, hr] at h; exact absurd h (by simp)
      | some bs2 =>
        rw [hb, hr] at h
        injection h with h2
        subst h2
        have := ih bs2 hr
        simp [this]

/-! ## Claim C1 -/

/-- Claim C1, as stated, is false: the drop loop retains any function with a
non-empty caller set, so the mutual-recursion pair f ↔ g (never called from
main) is retained even though f is not reachable from main. -/
theorem claim_C1_counterexample :
    UFunc.mk "f" ["g"] ∈ dropUncalledFuncs [UFunc.mk "f" ["g"], UFunc.mk "g" ["f"]] ∧
    ¬ ReachableFromMain [UFunc.mk "f" ["g"], UFunc.mk "g" ["f"]] "f" := by
  constructor
  · decide
  · intro h
    have hall : ∀ n, ReachableFromMain [UFunc.mk "f" ["g"], UFunc.mk "g" ["f"]] n → False := by
      intro n hn
      induction hn with
      | direct f hf hm =>
        rcases List.mem_cons.mp hf with h1 | h1
        · subst h1; exact absurd hm (by decide)
        · rcases List.mem_cons.mp h1 with h2 | h2
          · subst h2; exact absurd hm (by decide)
          · simp at h2
      | step f hf g hg hc ih => exact ih
    exact hall "f" h

/-- Claim C1 (amended): after the dead-function elimination of the link pass,
every retained user function has a non-empty caller set (it is called by main
or by another retained function); reachability from main is NOT guaranteed,
since a mutual-recursion group never called from main's closure is retained,
not discarded. -/
theorem claim_C1_amended_thm (fs : List UFunc) (f : UFunc)
    (hf : f ∈ dropUncalledFuncs fs) : f.callerSet ≠ [] :=
  dropUncalledGo_callers_ne_nil (fs.length + 1) fs (Nat.lt_succ_self _) f hf

/-- Witness for claim C1's amended theorem at a concrete call graph. -/
theorem claim_C1_witness :
    UFunc.mk "f" ["main"] ∈ dropUncalledFuncs [UFunc.mk "f" ["main"]] ∧
    (UFunc.mk "f" ["main"]).callerSet ≠ [] :=
  ⟨by decide, claim_C1_amended_thm [UFunc.mk "f" ["main"]] (UFunc.mk "f" ["main"]) (by decide)⟩

/-! ## Claim C2 -/

/-- Claim C2, as stated, is false: the link pass does not prepend
`CALL main_entry; HALT` to the init buffer.  For `void main(void){exit(0);}`
main's buffer compiles to the single statement `HALT 0` (no entry TAG is
emitted for main), and the link pass inlines it into the init buffer, giving
an output with no CALL, no TAG, and tag count 0 (not 1). -/
theorem claim_C2_counterexample :
    compileFuncDefBuf "main" 0 emptyScope demoFEnv
        [.funcCall "exit" [.constant "int" "0"]] = .ok [.cmd "HALT" [.str "0"]] ∧
    linkPass [] [.cmd "HALT" [.str "0"]] [] [] true = some [[.cmd "HALT" [.str "0"]]] ∧
    pccTagCount [[.cmd "HALT" [.str "0"]]] = 0 ∧
    ([[.cmd "HALT" [.str "0"]]].all fun b =>
      b.all fun s => !(isTagStmt s) && !(instrOf s == some "CALL")) = true :=
  ⟨rfl, by decide, by decide, by decide⟩

/-- Claim C2 (amended): in the link pass main's buffer has every `RET`
replaced by `HALT` and is appended to the init buffer (main is emitted without
an entry tag and without any `CALL main; HALT` stub); for
`void main(void){exit(0);}` the emitted program is the single instruction
`HALT 0`, with tag count 0 and variable count 4. -/
theorem claim_C2_amended_thm :
    compileFuncDefBuf "main" 0 emptyScope demoFEnv
        [.funcCall "exit" [.constant "int" "0"]] = .ok [.cmd "HALT" [.str "0"]] ∧
    linkPass [] [.cmd "HALT" [.str "0"]] [] [] true = some [[.cmd "HALT" [.str "0"]]] ∧
    linkPass [] [.cmd "RET" []] [] [] true = some [[.cmd "HALT" []]] ∧
    pccTagCount [[.cmd "HALT" [.str "0"]]] = 0 ∧
    pccVarCount [[.cmd "HALT" [.str "0"]]] = 4 :=
  ⟨rfl, by decide, by decide, by decide, by decide⟩

/-! ## Claim C3 -/

/-- Claim C3, as stated, is false: `tag_base` starts at 0 (pcc.py line 1306),
so a tag in the first buffer (init + main) is bound to 0, not to a number in
`[10, ∞)`. -/
theorem claim_C3_counterexample :
    pccTagAssign [[.tag 7, .branch "JMP" 7]] = [(7, 0)] ∧ ¬ (10 : Nat) ≤ 0 :=
  ⟨by decide, by decide⟩

/-- Claim C3 (amended): global tag binding starts at base 0; the first
buffer's tags receive the consecutive numbers 0..n-1, and every subsequent
buffer's tags (base advanced by `((base + n + 10) / 10) * 10`) are bound to
numbers that are at least 10. -/
theorem claim_C3_amended_thm (b0 : List AsmStmt) (bs : List (List AsmStmt))
    (p q : Nat × Nat) :
    pccTagAssign (b0 :: bs) =
      bindTagsList b0 0 ++ linkBindTags bs (((0 + numTags b0 + 10) / 10) * 10) ∧
    (p ∈ bindTagsList b0 0 → p.2 < numTags b0) ∧
    (q ∈ linkBindTags bs (((0 + numTags b0 + 10) / 10) * 10) → 10 ≤ q.2) := by
  refine ⟨rfl, ?_, ?_⟩
  · intro hp
    have := bindTagsList_lt b0 0 p hp
    omega
  · intro hq
    exact linkBindTags_ge bs _ (nextBase_ge_ten 0 (numTags b0)) q hq

/-- Witness for claim C3's amended theorem on concrete buffers. -/
theorem claim_C3_witness :
    ((3, 0) : Nat × Nat).2 < numTags [AsmStmt.tag 3] ∧ 10 ≤ ((4, 10) : Nat × Nat).2 := by
  have h := claim_C3_amended_thm [AsmStmt.tag 3] [[AsmStmt.tag 4]] (3, 0) (4, 10)
  exact ⟨h.2.1 (by decide), h.2.2 (by decide)⟩

/-! ## Claim C4 -/

/-- Claim C4, as stated, is false: `reduce()` is not idempotent.  On
`[JMP 0, TAG 1, JMP 2]` the first pass drops only `TAG 1` (the output has
fewer than three statements, so the both-drop rule cannot fire), leaving the
adjacent pair `JMP 0, JMP 2` that only a second pass collapses. -/
theorem claim_C4_counterexample :
    reduce [.branch "JMP" 0, .tag 1, .branch "JMP" 2] =
      some [.branch "JMP" 0, .branch "JMP" 2] ∧
    reduce [.branch "JMP" 0, .branch "JMP" 2] = some [.branch "JMP" 0] ∧
    ([.branch "JMP" 0, .branch "JMP" 2] : List AsmStmt) ≠ [.branch "JMP" 0] :=
  ⟨by decide, by decide, by decide⟩

/-- Claim C4 (amended): the peephole reducer is idempotent on every non-empty
buffer that contains no `TAG` statements (where only the curr-dropping
`AsmCmd`-pair rules can fire); with `TAG` statements present a second run can
rewrite further. -/
theorem claim_C4_amended_thm (b : List AsmStmt) (hne : b ≠ [])
    (hnt : ∀ s ∈ b, isTagStmt s = false) :
    ∃ out, reduce b = some out ∧ reduce out = some out := by
  cases b with
  | nil => exact absurd rfl hne
  | cons s rest =>
    refine ⟨reduceGo rest.length [s] rest, rfl, ?_⟩
    have hs : isTagStmt s = false := hnt s (by simp)
    obtain ⟨hnt2, hch2⟩ := reduceGo_noTag_chain rest.length rest [s] le_rfl
      (fun u hu => hnt u (by simp [hu]))
      (fun u hu => by
        have he : u = s := by simpa using hu
        rw [he]
        exact hs)
      (by simp)
    have hne2 : reduceGo rest.length [s] rest ≠ [] :=
      reduceGo_ne_nil rest.length rest [s] (by simp)
    cases hout : reduceGo rest.length [s] rest with
    | nil => exact absurd hout hne2
    | cons o orest =>
      rw [hout] at hnt2 hch2
      rw [reduce]
      have hst := reduceGo_stable orest.length orest o [] le_rfl
        (fun t ht => hnt2 t (by simp [ht])) (hnt2 o (by simp)) hch2
      rw [hst]
      simp

/-- Witness for claim C4's amended theorem on a concrete tag-free buffer. -/
theorem claim_C4_witness :
    ∃ out, reduce [AsmStmt.cmd "RET" [], AsmStmt.cmd "RET" []] = some out ∧
      reduce out = some out :=
  claim_C4_amended_thm [AsmStmt.cmd "RET" [], AsmStmt.cmd "RET" []] (by decide) (by decide)

/-! ## Claim C5 -/

/-- Claim C5, as stated, is false: helper buffers are appended to the link
output untouched.  A helper buffer `[TAG 5, RET, RET]` appears verbatim in
the output even though the processing the claim describes (seeded
drop_unused_tags followed by reduce) would rewrite it to `[TAG 5, RET]`. -/
theorem claim_C5_counterexample :
    linkPass [] [.cmd "RET" []] [] [[.tag 5, .cmd "RET" [], .cmd "RET" []]] true =
      some [[.cmd "HALT" []], [.tag 5, .cmd "RET" [], .cmd "RET" []]] ∧
    reduce (dropUnusedTags [.tag 5, .cmd "RET" [], .cmd "RET" []] [(5, 1)]) =
      some [.tag 5, .cmd "RET" []] ∧
    ([.tag 5, .cmd "RET" [], .cmd "RET" []] : List AsmStmt) ≠ [.tag 5, .cmd "RET" []] :=
  ⟨by decide, by decide, by decide⟩

/-- Claim C5 (amended): `drop_unused_tags` and the optional reducer are
applied only to main's buffer and the retained user functions' buffers; the
instantiated helper buffers are appended to the output unprocessed, and the
seed credits one use to each retained user function's entry tag only (such a
seeded tag statement is never dropped). -/
theorem claim_C5_amended_thm (initBuf mainBuf : List AsmStmt)
    (userFuncs : List (Nat × List AsmStmt)) (helperBufs : List (List AsmStmt))
    (doReduce : Bool) (out : List (List AsmStmt))
    (hout : linkPass initBuf mainBuf userFuncs helperBufs doReduce = some out)
    (stmts : List AsmStmt) (seed : List (Nat × Nat)) (t v : Nat)
    (hseed : lookupA seed t = some v) (hv : 1 ≤ v) (hmem : AsmStmt.tag t ∈ stmts) :
    out.drop (1 + userFuncs.length) = helperBufs ∧
    AsmStmt.tag t ∈ dropUnusedTags stmts seed := by
  constructor
  · simp only [linkPass] at hout
    cases hm : processBuf (userFuncs.map fun f => (f.1, 1)) doReduce mainBuf with
    | none => rw [hm] at hout; exact absurd hout (by simp)
    | some mainB =>
      cases hu : processAll (userFuncs.map fun f => (f.1, 1)) doReduce
          (userFuncs.map Prod.snd) with
      | none => rw [hm, hu] at hout; exact absurd hout (by simp)
      | some userBufs =>
        rw [hm, hu] at hout
        injection hout with h2
        subst h2
        have hlen : userBufs.length = userFuncs.length := by
          rw [processAll_length _ _ _ _ hu]
          simp
        have h3 : 1 + userFuncs.length = userBufs.length + 1 := by omega
        rw [h3]
        exact List.drop_left _ _
  · exact dropUnusedTags_keeps_seeded stmts seed t v hseed hv hmem

/-- Witness for claim C5's amended theorem on a concrete link input. -/
theorem claim_C5_witness :
    ([[AsmStmt.cmd "HALT" []], [AsmStmt.tag 9]].drop (1 + 0) = [[AsmStmt.tag 9]]) ∧
    AsmStmt.tag 9 ∈ dropUnusedTags [AsmStmt.tag 9] [(9, 1)] := by
  have h := claim_C5_amended_thm [] [.cmd "RET" []] [] [[.tag 9]] true
    [[AsmStmt.cmd "HALT" []], [AsmStmt.tag 9]] (by decide) [AsmStmt.tag 9] [(9, 1)] 9 1
    (by decide) (by decide) (by decide)
  exact ⟨h.1, h.2⟩

/-! ## Claim C6 -/

/-- Claim C6, as stated, is false: the both-drop rule requires
`len(out_buf) > 2`, so when the preceding `JMP` is the first statement of the
output the else-branch fires instead, dropping only `TAG X` and keeping
`JMP Y`. -/
theorem claim_C6_counterexample :
    reduce [.branch "JMP" 0, .tag 1, .branch "JMP" 2] =
      some [.branch "JMP" 0, .branch "JMP" 2] ∧
    some ([.branch "JMP" 0, .branch "JMP" 2] : List AsmStmt) ≠
      some [.branch "JMP" 0] :=
  ⟨by decide, by decide⟩

/-- Claim C6 (amended): the `TAG X + JMP Y` with preceding-`JMP` rule drops
both statements only when at least two statements precede `TAG X` in the
output (`len(out_buf) > 2`); when the preceding `JMP` is the first output
statement only `TAG X` is dropped and `JMP Y` is kept (after replacing
X with Y). -/
theorem claim_C6_amended_thm (z x y : Nat) (hxz : x ≠ z) :
    reduce [.cmd "LDA" [], .branch "JMP" z, .tag x, .branch "JMP" y] =
      some [.cmd "LDA" [], .branch "JMP" z] ∧
    reduce [.branch "JMP" z, .tag x, .branch "JMP" y] =
      some [.branch "JMP" z, .branch "JMP" y] := by
  have hzx : z ≠ x := Ne.symm hxz
  constructor
  · simp [reduce, reduceGo, reduceStep, pairMatch, stmtIsCmd, isTagStmt, instrOf,
      argsHead, replaceTagL, replaceTagStmt, hxz, hzx]
  · simp [reduce, reduceGo, reduceStep, pairMatch, stmtIsCmd, isTagStmt, instrOf,
      argsHead, replaceTagL, replaceTagStmt, hxz, hzx]

/-- Witness for claim C6's amended theorem at concrete tags. -/
theorem claim_C6_witness :
    reduce [.cmd "LDA" [], .branch "JMP" 0, .tag 1, .branch "JMP" 2] =
      some [.cmd "LDA" [], .branch "JMP" 0] ∧
    reduce [.branch "JMP" 0, .tag 1, .branch "JMP" 2] =
      some [.branch "JMP" 0, .branch "JMP" 2] :=
  claim_C6_amended_thm 0 1 2 (by decide)

/-! ## Claim C7 -/

/-- Claim C7 (confirmed): for `gpioSetMode` under the classic instruction
set, a compile-time constant second argument k with 0 ≤ k ≤ 7 is remapped to
the character of "RW540123" at index k (so `gpioSetMode(17, 1)` emits
`MODES 17 W`), and a non-constant second argument raises a `PccError` for
that call; analogously `gpioSetPullUpDown` maps 0..2 to "ODU". -/
theorem claim_C7_thm (s s2 : String) (k k2 : Int)
    (h1 : pyIntBase0 s = some k) (hk0 : 0 ≤ k) (hk7 : k ≤ 7)
    (h2 : pyIntBase0 s2 = some k2) (hl0 : 0 ≤ k2) (hl2 : k2 ≤ 2) :
    mapArgumentCisGpioSetMode 1 (some s) = .ok (some (strCharAt "RW540123" k.toNat)) ∧
    mapArgumentCisGpioSetMode 1 none =
      .error (.pccError "compile-time constant required for 2nd argument") ∧
    mapArgumentCisGpioSetPullUpDown 1 (some s2) = .ok (some (strCharAt "ODU" k2.toNat)) ∧
    mapArgumentCisGpioSetPullUpDown 1 none =
      .error (.pccError "compile-time constant required for 2nd argument") ∧
    compileVmApiFuncCall emptyScope (VmFn.mk "gpioSetMode" 2 true)
        [.constant "int" "17", .constant "int" "1"] false =
      .ok ([.cmd "MODES" [.str "17", .str "W"]], false) ∧
    compileVmApiFuncCall (fun n => if n = "x" then some (.varSym (.var 0 false)) else none)
        (VmFn.mk "gpioSetMode" 2 true) [.constant "int" "17", .id "x"] false =
      .error (.pccError "compile-time constant required for 2nd argument") := by
  refine ⟨?_, rfl, ?_, rfl, rfl, rfl⟩
  · simp [mapArgumentCisGpioSetMode, h1, hk0, hk7]
  · simp [mapArgumentCisGpioSetPullUpDown, h2, hl0, hl2]

/-- Witness for claim C7's theorem at concrete constants. -/
theorem claim_C7_witness :
    mapArgumentCisGpioSetMode 1 (some "1") =
      .ok (some (strCharAt "RW540123" (1 : Int).toNat)) ∧
    mapArgumentCisGpioSetMode 1 none =
      .error (.pccError "compile-time constant required for 2nd argument") ∧
    mapArgumentCisGpioSetPullUpDown 1 (some "2") =
      .ok (some (strCharAt "ODU" (2 : Int).toNat)) ∧
    mapArgumentCisGpioSetPullUpDown 1 none =
      .error (.pccError "compile-time constant required for 2nd argument") ∧
    compileVmApiFuncCall emptyScope (VmFn.mk "gpioSetMode" 2 true)
        [.constant "int" "17", .constant "int" "1"] false =
      .ok ([.cmd "MODES" [.str "17", .str "W"]], false) ∧
    compileVmApiFuncCall (fun n => if n = "x" then some (.varSym (.var 0 false)) else none)
        (VmFn.mk "gpioSetMode" 2 true) [.constant "int" "17", .id "x"] false =
      .error (.pccError "compile-time constant required for 2nd argument") :=
  claim_C7_thm "1" "2" 1 2 (by decide) (by decide) (by decide) (by decide)
    (by decide) (by decide)

/-! ## Claim C8 -/

/-- Claim C8 (confirmed): for an enum constant NAME in scope with value
string v parsed by `int(v, 0)` to i, the expression `-NAME` folds to exactly
`str(-i)`, and likewise `-lit` for an integer literal lit. -/
theorem claim_C8_thm (scope : Scope) (name v lit : String) (i j : Int)
    (henum : scope name = some (.enumSym v)) (hv : pyIntBase0 v = some i)
    (hlit : pyIntBase0 lit = some j) :
    tryParseConstant scope (.unaryOp "-" (.id name)) = some (toString (-i)) ∧
    tryParseConstant scope (.unaryOp "-" (.constant "int" lit)) = some (toString (-j)) := by
  constructor
  · simp [tryParseConstant, findEnumSym, henum, hv]
  · simp [tryParseConstant, hlit]

/-- A concrete scope binding the enum constant E to value "5". -/
def enumScopeE : Scope := fun n => if n = "E" then some (.enumSym "5") else none

/-- Witness for claim C8's theorem at a concrete enum constant and literal. -/
theorem claim_C8_witness :
    tryParseConstant enumScopeE (.unaryOp "-" (.id "E")) = some (toString (-(5 : Int))) ∧
    tryParseConstant enumScopeE (.unaryOp "-" (.constant "int" "12")) =
      some (toString (-(12 : Int))) :=
  claim_C8_thm enumScopeE "E" "5" "12" 5 12 (by decide) (by decide) (by decide)

/-! ## Claim C9 -/

/-- Claim C9 (confirmed): a compile-time constant second argument outside the
remap range (below 0 or above 7 for `gpioSetMode`, outside 0..2 for
`gpioSetPullUpDown`) is passed through unchanged with no diagnostic, so
`gpioSetMode(17, 8)` emits `MODES 17 8`. -/
theorem claim_C9_thm (s s2 : String) (k k2 : Int)
    (h1 : pyIntBase0 s = some k) (hk : k < 0 ∨ 7 < k)
    (h2 : pyIntBase0 s2 = some k2) (hk2 : k2 < 0 ∨ 2 < k2) :
    mapArgumentCisGpioSetMode 1 (some s) = .ok (some s) ∧
    mapArgumentCisGpioSetPullUpDown 1 (some s2) = .ok (some s2) ∧
    compileVmApiFuncCall emptyScope (VmFn.mk "gpioSetMode" 2 true)
        [.constant "int" "17", .constant "int" "8"] false =
      .ok ([.cmd "MODES" [.str "17", .str "8"]], false) := by
  refine ⟨?_, ?_, rfl⟩
  · have hne : ¬(0 ≤ k ∧ k ≤ 7) := by omega
    simp [mapArgumentCisGpioSetMode, h1, hne]
  · have hne : ¬(0 ≤ k2 ∧ k2 ≤ 2) := by omega
    simp [mapArgumentCisGpioSetPullUpDown, h2, hne]

/-- Witness for claim C9's theorem at concrete out-of-range constants. -/
theorem claim_C9_witness :
    mapArgumentCisGpioSetMode 1 (some "8") = .ok (some "8") ∧
    mapArgumentCisGpioSetPullUpDown 1 (some "3") = .ok (some "3") ∧
    compileVmApiFuncCall emptyScope (VmFn.mk "gpioSetMode" 2 true)
        [.constant "int" "17", .constant "int" "8"] false =
      .ok ([.cmd "MODES" [.str "17", .str "8"]], false) :=
  claim_C9_thm "8" "3" 8 3 (by decide) (by decide) (by decide) (by decide)

/-! ## Claim C10 -/

/-- Claim C10, as stated, is false in its preservation part: `reduce` does
fail on an empty buffer, but it does not always preserve the first input
statement — `[TAG 0, JMP 1]` reduces to `[JMP 1]`, which no longer contains
the first statement. -/
theorem claim_C10_counterexample :
    reduce ([] : List AsmStmt) = none ∧
    reduce [.tag 0, .branch "JMP" 1] = some [.branch "JMP" 1] ∧
    AsmStmt.tag 0 ∉ ([.branch "JMP" 1] : List AsmStmt) :=
  ⟨rfl, by decide, by decide⟩

/-- Claim C10 (amended): `reduce` on an empty buffer fails (out-of-range
access of the first element, modelled as `none`) rather than returning the
empty buffer; on every non-empty buffer it succeeds and returns a non-empty
buffer, but the first input statement is not always preserved. -/
theorem claim_C10_amended_thm :
    reduce ([] : List AsmStmt) = none ∧
    ∀ (s : AsmStmt) (rest : List AsmStmt),
      ∃ out, reduce (s :: rest) = some out ∧ out ≠ [] := by
  refine ⟨rfl, fun s rest => ⟨reduceGo rest.length [s] rest, rfl, ?_⟩⟩
  exact reduceGo_ne_nil rest.length rest [s] (by simp)
